import Mathlib

/-!
Verification of the meds-bot reminder scheduling and acknowledgment engine.

Shallow embedding of the Go sources:
* `internal/config/config.go` — `Medication`, `Config`, `validateConfig`
* `internal/reminder` — `shouldSendReminder`, `checkAndSendReminders`, `reminderLoop`
* `internal/db/db.go` — the SQLite-backed store (`GetTodayReminder`,
  `UpdateReminderStatus`), modelled as explicit state passing over a list of rows
* `internal/discord` — the medication button handler registered by
  `RegisterMedicationHandler`

Go strings are embedded as Lean `String` (Go `len` and slicing are modelled
character-wise, which agrees with the byte-wise Go operations on the ASCII
identifiers the program builds).  Instants are minutes since an epoch, a
timezone is an offset in minutes, and a calendar date is the floor of the
local instant divided by the 1440 minutes of a day.
-/

namespace MedsBot

/-- Event definition, from `config.Medication` in `internal/config/config.go`. -/
structure Medication where
  name : String
  hour : Int
  frequency : String
  day : String
deriving DecidableEq, Repr

/-- Application configuration, from `config.Config`. -/
structure Config where
  discordToken : String
  discordChannelID : String
  discordUserIDToPing : String
  reminderIntervalMins : Int
  medications : List Medication
  dbPath : String
  timezone : String
deriving DecidableEq, Repr

/-- Go `time.Weekday`. -/
inductive Weekday where
  | sunday | monday | tuesday | wednesday | thursday | friday | saturday
deriving DecidableEq, Repr

/-- Go `time.Weekday.String()`. -/
def Weekday.toStr : Weekday → String
  | .sunday => "Sunday"
  | .monday => "Monday"
  | .tuesday => "Tuesday"
  | .wednesday => "Wednesday"
  | .thursday => "Thursday"
  | .friday => "Friday"
  | .saturday => "Saturday"

/-- ASCII lowercase of one character. -/
def toLowerChar (c : Char) : Char :=
  if 65 ≤ c.toNat ∧ c.toNat ≤ 90 then Char.ofNat (c.toNat + 32) else c

/-- Go `strings.ToLower`, on the ASCII day and weekday names the program
compares (kernel-computable character map). -/
def strToLower (s : String) : String :=
  ⟨s.data.map toLowerChar⟩

/-- Due-window evaluator, from `Service.shouldSendReminder` in
`internal/reminder`.  The wall clock is already resolved to the configured
timezone by the caller of this model: `localWeekday` is `now.Weekday()` and
`currentHour` is `now.Hour()` of the local time.  Mirrors the Go body:
default the frequency to daily when empty, reject weekly medications on a
non-matching day (comparison of the lowercased configured day against the
lowercased weekday name, as in the Go `strings.ToLower` calls), then test
the five-hour window. -/
def shouldSendReminder (medication : Medication) (localWeekday : Weekday)
    (currentHour : Int) : Bool :=
  let frequency := if medication.frequency = "" then "daily" else medication.frequency
  if frequency = "weekly" then
    let currentDay := strToLower localWeekday.toStr
    if strToLower medication.day ≠ currentDay then
      false
    else
      decide (currentHour ≥ medication.hour) && decide (currentHour < medication.hour + 5)
  else
    decide (currentHour ≥ medication.hour) && decide (currentHour < medication.hour + 5)

/-- Per-medication validation steps of `validateConfig`, from
`internal/config/config.go`.  The Go loop mutates a local copy of the
medication, so the defaulted frequency is only visible inside one
iteration; the recursion models exactly that. -/
def validateMeds : List Medication → Except String Unit
  | [] => Except.ok ()
  | med :: rest =>
    if med.name = "" then
      Except.error "medication has no name"
    else if med.hour < 0 ∨ 23 < med.hour then
      Except.error "medication has invalid hour"
    else
      let frequency := if med.frequency = "" then "daily" else med.frequency
      if frequency ≠ "daily" ∧ frequency ≠ "weekly" then
        Except.error "medication has invalid frequency"
      else if frequency = "weekly" ∧ med.day = "" then
        Except.error "medication has weekly frequency but no day specified"
      else
        validateMeds rest

/-- Configuration validation, from `validateConfig` in
`internal/config/config.go`.  `validTZ` stands for the external
`time.LoadLocation` succeeding on the timezone name.  Returns the
configuration with the defaulted database path and timezone applied, as the
Go function mutates `cfg` in place. -/
def validateConfig (validTZ : String → Bool) (cfg : Config) : Except String Config :=
  if cfg.discordToken = "" then
    Except.error "Discord token is required"
  else if cfg.discordChannelID = "" then
    Except.error "Discord channel ID is required"
  else if cfg.reminderIntervalMins < 1 then
    Except.error "reminder interval must be at least 1 minute"
  else if cfg.medications = [] then
    Except.error "at least one medication is required"
  else
    match validateMeds cfg.medications with
    | Except.error e => Except.error e
    | Except.ok _ =>
      let cfg1 := { cfg with dbPath := if cfg.dbPath = "" then "./meds_reminder.db" else cfg.dbPath }
      if cfg1.timezone = "" then
        Except.ok { cfg1 with timezone := "UTC" }
      else if validTZ cfg1.timezone then
        Except.ok cfg1
      else
        Except.error "invalid timezone"

/-- Database row of the `reminders` table created by `initSchema` in
`internal/db/db.go`.  `id INTEGER PRIMARY KEY` is the rowid;
`last_reminder_time` and `message_id` are nullable.  The schema declares no
uniqueness constraint on the (date, medication_type) pair. -/
structure Row where
  id : Int
  date : String
  medicationType : String
  acknowledged : Bool
  lastReminderTime : Option Nat
  messageID : Option String
deriving DecidableEq, Repr

/-- SQLite database state: rows in rowid order plus the next rowid an
INSERT will allocate. -/
structure DB where
  rows : List Row
  nextId : Int
deriving DecidableEq, Repr

/-- Result struct `db.Reminder` returned by the store. -/
structure Reminder where
  id : Int
  date : String
  medicationType : String
  acknowledged : Bool
  lastReminderTime : Option Nat
  messageID : String
deriving DecidableEq, Repr

/-- SELECT statement of `GetTodayReminder`: the first row matching the date
and medication type, in rowid order. -/
def findRow (rows : List Row) (today name : String) : Option Row :=
  rows.find? (fun r => decide (r.date = today) && decide (r.medicationType = name))

/-- INSERT statement of `GetTodayReminder`: append a fresh unacknowledged
row and return the new database together with `LastInsertId`. -/
def insertReminderRow (st : DB) (today name : String) : DB × Int :=
  ({ rows := st.rows ++ [Row.mk st.nextId today name false none none],
     nextId := st.nextId + 1 }, st.nextId)

/-- Store get-or-create, from `Store.GetTodayReminder`: SELECT by
(date, medication type); when a row is found, build the `Reminder` from it
(a NULL message id reads back as the empty string), otherwise INSERT a
fresh unacknowledged row.  The two SQL statements are the two primitives
above; `today` is the date string the Go code computes from the process
clock. -/
def getTodayReminder (st : DB) (today name : String) : DB × Reminder :=
  match findRow st.rows today name with
  | some r =>
      (st, { id := r.id, date := today, medicationType := name,
             acknowledged := r.acknowledged, lastReminderTime := r.lastReminderTime,
             messageID := r.messageID.getD "" })
  | none =>
      let res := insertReminderRow st today name
      (res.1, { id := res.2, date := today, medicationType := name,
                acknowledged := false, lastReminderTime := none, messageID := "" })

/-- Minutes per calendar day. -/
def minutesPerDay : Nat := 1440

/-- Calendar date (as a day index) of an instant shifted by a timezone
offset, both counted in minutes. -/
def localDate (instant offset : Nat) : Nat :=
  (instant + offset) / minutesPerDay

/-- Date string rendered by the Go `Format("2006-01-02")` call for an
instant viewed in a zone with the given offset. -/
def dateStr (instant offset : Nat) : String :=
  toString (localDate instant offset)

/-- Store call with the clock made explicit: `GetTodayReminder` derives
today from `time.Now()` in the process-local timezone, hence from
`procOffset`. -/
def getTodayReminderAt (st : DB) (instant procOffset : Nat) (name : String) :
    DB × Reminder :=
  getTodayReminder st (dateStr instant procOffset) name

/-- Definition following the spec's words (§3, §4.2 of the specification):
the calendar date of the call instant in the event's configured timezone,
which the claim says keys the record.  Declared only to be compared with
the date `getTodayReminderAt` actually uses. -/
def specConfiguredTzDate (instant confOffset : Nat) : String :=
  dateStr instant confOffset

/-- Effect of the UPDATE statement of `Store.UpdateReminderStatus` on the
rows: every row with the given rowid gets the acknowledged flag, the
message id and the last reminder time (set to the call time) overwritten. -/
def applyUpdate (st : DB) (now : Nat) (id : Int) (acknowledged : Bool)
    (messageID : String) : DB :=
  { st with rows := st.rows.map (fun r =>
    if r.id = id then
      { r with acknowledged := acknowledged, messageID := some messageID,
               lastReminderTime := some now }
    else r) }

/-- Store update, from `Store.UpdateReminderStatus`: one UPDATE by rowid.
The statement succeeds whether or not any row matches, mirroring the Go
function's unconditional final `return nil`. -/
def updateReminderStatus (st : DB) (now : Nat) (id : Int) (acknowledged : Bool)
    (messageID : String) : Except String DB :=
  Except.ok (applyUpdate st now id acknowledged messageID)

/-- Number of rows stored for one (date, medication type) pair. -/
def countRows (st : DB) (today name : String) : Nat :=
  st.rows.countP (fun r => decide (r.date = today) && decide (r.medicationType = name))

/-- Outcome of one invocation of the medication button handler. -/
inductive AckOutcome where
  | invalidFormat
  | alreadyAcknowledged
  | acknowledged
  | updateFailed
deriving DecidableEq, Repr

/-- Observable result of one handler invocation: the store afterwards, the
response outcome, the medication names looked up in the store and the
record ids written. -/
structure HandlerResult where
  db : DB
  outcome : AckOutcome
  readNames : List String
  wroteIds : List Int
deriving DecidableEq, Repr

/-- Medication button handler registered by `RegisterMedicationHandler` in
`internal/discord`: reject custom ids no longer than the 17 characters of
the "medication_taken_" tag, otherwise take the rest of the custom id as
the medication name, get-or-create today's record, answer "already
acknowledged" without writing when the record is already acknowledged, and
otherwise mark the record acknowledged with the interaction's message id.
`today` and `now` make the store clock explicit; message edits and
interaction responses are external effects without store state, and SQL
failures do not arise in the pure store model. -/
def medicationHandler (st : DB) (today : String) (now : Nat)
    (customID interactionMessageID : String) : HandlerResult :=
  if customID.length ≤ 17 then
    HandlerResult.mk st AckOutcome.invalidFormat [] []
  else
    let medicationName := customID.drop 17
    let res := getTodayReminder st today medicationName
    if res.2.acknowledged then
      HandlerResult.mk res.1 AckOutcome.alreadyAcknowledged [medicationName] []
    else
      match updateReminderStatus res.1 now res.2.id true interactionMessageID with
      | Except.ok st2 =>
          HandlerResult.mk st2 AckOutcome.acknowledged [medicationName] [res.2.id]
      | Except.error _ =>
          HandlerResult.mk res.1 AckOutcome.updateFailed [medicationName] []

/-- Environment of one evaluation pass: the local wall clock (weekday and
hour in the configured timezone), the date string and instant of the
process clock, and the dispatcher's outcome (message id or error) for
sending each medication's notification.  `DeleteMessage` failures are
logged and ignored by the Go code and touch no store state, so deletion
needs no representation here. -/
structure PassEnv where
  wd : Weekday
  hour : Int
  today : String
  now : Nat
  send : Medication → Except String String

/-- Result of one evaluation pass: the store afterwards, the names for
which a notification send was attempted, and the error that aborted the
pass, if any. -/
structure PassResult where
  db : DB
  sent : List String
  err : Option String
deriving DecidableEq, Repr

/-- One evaluation pass, from `Service.checkAndSendReminders` in
`internal/reminder`: for each configured medication in order, skip if not
due; get-or-create today's record; skip if acknowledged; best-effort
delete of the previous message (external, failures logged); send a new
notification, aborting the whole pass on failure; finally store the new
message id with acknowledged still false, also aborting on failure. -/
def checkAndSendReminders (env : PassEnv) : List Medication → DB → PassResult
  | [], st => PassResult.mk st [] none
  | medication :: rest, st =>
    if shouldSendReminder medication env.wd env.hour then
      let res := getTodayReminder st env.today medication.name
      if res.2.acknowledged then
        checkAndSendReminders env rest res.1
      else
        match env.send medication with
        | Except.error e =>
            PassResult.mk res.1 [medication.name]
              (some ("failed to send reminder for " ++ medication.name ++ ": " ++ e))
        | Except.ok newMessageID =>
            match updateReminderStatus res.1 env.now res.2.id false newMessageID with
            | Except.error e2 =>
                PassResult.mk res.1 [medication.name]
                  (some ("failed to update reminder status for " ++ medication.name ++ ": " ++ e2))
            | Except.ok st2 =>
                let r := checkAndSendReminders env rest st2
                PassResult.mk r.db (medication.name :: r.sent) r.err
    else
      checkAndSendReminders env rest st

/-- State of the reminder loop: the store plus the number of completed
evaluation passes and the errors logged so far. -/
structure LoopState where
  db : DB
  passes : Nat
  errorsLogged : List String
deriving DecidableEq, Repr

/-- One timer tick of `Service.reminderLoop`: run a full evaluation pass;
a pass error is only logged and the loop keeps running. -/
def runTick (env : PassEnv) (meds : List Medication) (ls : LoopState) : LoopState :=
  let r := checkAndSendReminders env meds ls.db
  LoopState.mk r.db (ls.passes + 1)
    (ls.errorsLogged ++ (match r.err with | some e => [e] | none => []))

/-- The reminder loop after a number of timer ticks, each tick with its own
wall clock and dispatcher environment. -/
def reminderLoop (envs : Nat → PassEnv) (meds : List Medication) (ls0 : LoopState) :
    Nat → LoopState
  | 0 => ls0
  | n + 1 => runTick (envs n) meds (reminderLoop envs meds ls0 n)

/-- Configuration with a single known medication, used to exhibit the
behaviour of the handler on names outside the configuration. -/
def sampleConfig : Config :=
  Config.mk "token" "channel" "" 30 [Medication.mk "Pill" 8 "daily" ""]
    "./meds_reminder.db" "UTC"

/-- Success test for an `Except` result. -/
def exceptOk {α : Type} (e : Except String α) : Bool :=
  match e with
  | Except.ok _ => true
  | Except.error _ => false

/-- One atomic step of the running system: a full scheduler evaluation pass
or one acknowledgment-handler invocation, interleaved in any order. -/
inductive SysStep where
  | pass (env : PassEnv) (meds : List Medication)
  | ack (today : String) (now : Nat) (customID interactionMessageID : String)

/-- Effect of one step on the store. -/
def applyStep : SysStep → DB → DB
  | SysStep.pass env meds, st => (checkAndSendReminders env meds st).db
  | SysStep.ack today now customID msgID, st =>
      (medicationHandler st today now customID msgID).db

/-- Store states visited along a sequence of steps, initial state
included. -/
def traceStates (st : DB) : List SysStep → List DB
  | [] => [st]
  | s :: tr => st :: traceStates (applyStep s st) tr

/-- Acknowledged flag of the record with the given rowid (false when no
such record exists). -/
def ackTrue (st : DB) (id : Int) : Bool :=
  match st.rows.find? (fun r => decide (r.id = id)) with
  | some r => r.acknowledged
  | none => false

/-- Number of false-to-true moves between adjacent entries. -/
def riseCount : List Bool → Nat
  | [] => 0
  | [_] => 0
  | a :: b :: l => (if a = false ∧ b = true then 1 else 0) + riseCount (b :: l)

/-- Number of true-to-false moves between adjacent entries. -/
def fallCount : List Bool → Nat
  | [] => 0
  | [_] => 0
  | a :: b :: l => (if a = true ∧ b = false then 1 else 0) + fallCount (b :: l)

/-- Adjacent entries never move from true to false. -/
def MonoList : List Bool → Prop
  | [] => True
  | [_] => True
  | a :: b :: l => (a = true → b = true) ∧ MonoList (b :: l)

/-- Well-formed store: rowids are pairwise distinct and below the next
rowid to be allocated — true of the empty store and preserved by every
store operation. -/
def WF (st : DB) : Prop :=
  (st.rows.map Row.id).Nodup ∧ ∀ r ∈ st.rows, r.id < st.nextId

/-- C1: for every event and local time, a weekly event on a
case-insensitively non-matching day is not due; in every other case the
event is due exactly when the local hour lies in the five-hour window
starting at the target hour. -/
theorem shouldSend_weekly_guard_and_window (med : Medication) (wd : Weekday) (h : Int) :
    (med.frequency = "weekly" → strToLower med.day ≠ strToLower wd.toStr →
      shouldSendReminder med wd h = false) ∧
    (¬ (med.frequency = "weekly" ∧ strToLower med.day ≠ strToLower wd.toStr) →
      (shouldSendReminder med wd h = true ↔ med.hour ≤ h ∧ h < med.hour + 5)) := by
  constructor
  · intro hw hd
    simp [shouldSendReminder, hw, hd]
  · intro hnot
    by_cases hw : med.frequency = "weekly"
    · have hd : ¬ strToLower med.day ≠ strToLower wd.toStr := fun hd => hnot ⟨hw, hd⟩
      simp only [ne_eq, not_not] at hd
      simp [shouldSendReminder, hw, hd, ge_iff_le]
    · by_cases hempty : med.frequency = ""
      · simp [shouldSendReminder, hempty, ge_iff_le]
      · simp [shouldSendReminder, hempty, hw, ge_iff_le]

/-- Witness for C1: a weekly medication on the wrong day is not due at its
target hour, and a daily medication is due one hour into its window. -/
theorem shouldSend_weekly_guard_and_window_witness :
    shouldSendReminder ⟨"Med", 8, "weekly", "Friday"⟩ Weekday.monday 8 = false ∧
    shouldSendReminder ⟨"Pill", 8, "daily", ""⟩ Weekday.monday 9 = true :=
  ⟨(shouldSend_weekly_guard_and_window ⟨"Med", 8, "weekly", "Friday"⟩ Weekday.monday 8).1
      (by decide) (by decide),
   ((shouldSend_weekly_guard_and_window ⟨"Pill", 8, "daily", ""⟩ Weekday.monday 9).2
      (by simp)).2 (by decide)⟩

/-- C2: refutation of duplicate-freedom under concurrent calls.  The
`reminders` schema has no uniqueness constraint on (date, medication_type)
and `GetTodayReminder` runs its SELECT and its INSERT as two separate
statements, so two concurrent calls for the same medication on the same day
can interleave as SELECT, SELECT, INSERT, INSERT: both SELECTs observe no
row on the empty store, both calls take the insert branch, and the store
ends up with two rows for the same (event, date) pair. -/
theorem interleaved_getOrCreate_creates_duplicates :
    findRow (DB.mk [] 1).rows "2024-05-01" "TestMed" = none ∧
    countRows (insertReminderRow
        (insertReminderRow (DB.mk [] 1) "2024-05-01" "TestMed").1
        "2024-05-01" "TestMed").1 "2024-05-01" "TestMed" = 2 := by
  decide

/-- C4 counterexample: on a store with no rows at all there is no record
with id 42, yet `updateReminderStatus` reports success — the UPDATE matches
zero rows and the Go code never inspects the affected-row count. -/
theorem updateStatus_missing_id_no_error :
    updateReminderStatus (DB.mk [] 1) 5 42 true "ref" = Except.ok (DB.mk [] 1) :=
  rfl

/-- C4 (amended): `updateReminderStatus` always succeeds — in particular it
does not fail when no record carries the given id — and every record with
the id has its acknowledged flag, notification reference and last reminder
time (set to the call time) overwritten, all other records staying in the
store unchanged. -/
theorem updateStatus_total_and_overwrites (st : DB) (now : Nat) (id : Int)
    (ack : Bool) (ref : String) :
    ∃ st2, updateReminderStatus st now id ack ref = Except.ok st2 ∧
      (∀ r ∈ st.rows, r.id = id →
        { r with acknowledged := ack, messageID := some ref,
                 lastReminderTime := some now } ∈ st2.rows) ∧
      (∀ r ∈ st.rows, r.id ≠ id → r ∈ st2.rows) := by
  refine ⟨_, rfl, ?_, ?_⟩
  · intro r hr hid
    have hm := List.mem_map_of_mem (fun r : Row =>
      if r.id = id then
        { r with acknowledged := ack, messageID := some ref,
                 lastReminderTime := some now }
      else r) hr
    simpa [applyUpdate, hid] using hm
  · intro r hr hid
    have hm := List.mem_map_of_mem (fun r : Row =>
      if r.id = id then
        { r with acknowledged := ack, messageID := some ref,
                 lastReminderTime := some now }
      else r) hr
    simpa [applyUpdate, hid] using hm

/-- Witness for C4 (amended): updating the single stored record overwrites
its fields and succeeds. -/
theorem updateStatus_total_and_overwrites_witness :
    ∃ st2, updateReminderStatus (DB.mk [Row.mk 1 "d" "Pill" false none none] 2) 7 1 true "m"
        = Except.ok st2 ∧
      (∀ r ∈ (DB.mk [Row.mk 1 "d" "Pill" false none none] 2).rows, r.id = 1 →
        { r with acknowledged := true, messageID := some "m",
                 lastReminderTime := some 7 } ∈ st2.rows) ∧
      (∀ r ∈ (DB.mk [Row.mk 1 "d" "Pill" false none none] 2).rows, r.id ≠ 1 →
        r ∈ st2.rows) :=
  updateStatus_total_and_overwrites (DB.mk [Row.mk 1 "d" "Pill" false none none] 2) 7 1 true "m"

/-- C5 counterexample: at instant 1430 (23:50 of day 0) with the process
running at offset 0 and the event's configured timezone at offset +180
minutes, the record the store returns is keyed by date "0" while the
configured-timezone calendar date is already "1": `GetTodayReminder`
formats `time.Now()` in the process-local zone and ignores the configured
timezone the due evaluator uses. -/
theorem getToday_date_not_configured_tz :
    (getTodayReminderAt (DB.mk [] 1) 1430 0 "Med").2.date ≠ specConfiguredTzDate 1430 180 := by
  decide

/-- C5 (amended): the calendar date keying the record is the date of the
call instant at the process-local timezone offset — the store's own clock —
whatever timezone the event is configured with: the returned record carries
that date and a row with that date and the event name exists in the store
afterwards. -/
theorem getToday_date_is_process_local (st : DB) (instant procOffset : Nat) (name : String) :
    (getTodayReminderAt st instant procOffset name).2.date = dateStr instant procOffset ∧
    (getTodayReminderAt st instant procOffset name).2.medicationType = name ∧
    ∃ r ∈ (getTodayReminderAt st instant procOffset name).1.rows,
      r.id = (getTodayReminderAt st instant procOffset name).2.id ∧
      r.date = dateStr instant procOffset ∧ r.medicationType = name := by
  generalize hd : dateStr instant procOffset = today
  simp only [getTodayReminderAt, hd, getTodayReminder]
  cases hf : findRow st.rows today name with
  | some r =>
      have hmem : r ∈ st.rows := List.mem_of_find?_eq_some hf
      have hp := List.find?_some hf
      simp only [Bool.and_eq_true, decide_eq_true_eq] at hp
      exact ⟨rfl, rfl, r, hmem, rfl, hp.1, hp.2⟩
  | none =>
      exact ⟨rfl, rfl, Row.mk st.nextId today name false none none,
        List.mem_append_right _ (List.mem_singleton.mpr rfl), rfl, rfl, rfl⟩

/-- Unfolding the pass on a medication that is not due. -/
theorem pass_cons_notdue (env : PassEnv) (m : Medication) (l : List Medication) (st : DB)
    (h : shouldSendReminder m env.wd env.hour = false) :
    checkAndSendReminders env (m :: l) st = checkAndSendReminders env l st := by
  simp [checkAndSendReminders, h]

/-- Unfolding the pass on a due medication whose record is acknowledged. -/
theorem pass_cons_ack (env : PassEnv) (m : Medication) (l : List Medication) (st : DB)
    (hdue : shouldSendReminder m env.wd env.hour = true)
    (hack : (getTodayReminder st env.today m.name).2.acknowledged = true) :
    checkAndSendReminders env (m :: l) st =
      checkAndSendReminders env l (getTodayReminder st env.today m.name).1 := by
  simp [checkAndSendReminders, hdue, hack]

/-- Unfolding the pass on a due, unacknowledged medication whose
notification send fails: the pass stops with the error. -/
theorem pass_cons_sendfail (env : PassEnv) (m : Medication) (l : List Medication)
    (st : DB) (e : String)
    (hdue : shouldSendReminder m env.wd env.hour = true)
    (hack : (getTodayReminder st env.today m.name).2.acknowledged = false)
    (hfail : env.send m = Except.error e) :
    checkAndSendReminders env (m :: l) st =
      PassResult.mk (getTodayReminder st env.today m.name).1 [m.name]
        (some ("failed to send reminder for " ++ m.name ++ ": " ++ e)) := by
  simp [checkAndSendReminders, hdue, hack, hfail]

/-- Unfolding the pass on a due, unacknowledged medication whose
notification send succeeds: the record is updated with the new message id
and the pass continues. -/
theorem pass_cons_sendok (env : PassEnv) (m : Medication) (l : List Medication)
    (st : DB) (newMessageID : String)
    (hdue : shouldSendReminder m env.wd env.hour = true)
    (hack : (getTodayReminder st env.today m.name).2.acknowledged = false)
    (hsend : env.send m = Except.ok newMessageID) :
    checkAndSendReminders env (m :: l) st =
      PassResult.mk
        (checkAndSendReminders env l (applyUpdate (getTodayReminder st env.today m.name).1
          env.now (getTodayReminder st env.today m.name).2.id false newMessageID)).db
        (m.name :: (checkAndSendReminders env l
          (applyUpdate (getTodayReminder st env.today m.name).1
            env.now (getTodayReminder st env.today m.name).2.id false newMessageID)).sent)
        (checkAndSendReminders env l (applyUpdate (getTodayReminder st env.today m.name).1
          env.now (getTodayReminder st env.today m.name).2.id false newMessageID)).err := by
  simp [checkAndSendReminders, hdue, hack, hsend, updateReminderStatus]

/-- Splitting an evaluation pass: when the pass over a first block of the
medication list finishes without error, the pass over a concatenation
continues from the store the first block reached. -/
theorem checkAndSend_append (env : PassEnv) (l1 l2 : List Medication) (st : DB)
    (h : (checkAndSendReminders env l1 st).err = none) :
    checkAndSendReminders env (l1 ++ l2) st =
      PassResult.mk
        (checkAndSendReminders env l2 (checkAndSendReminders env l1 st).db).db
        ((checkAndSendReminders env l1 st).sent ++
          (checkAndSendReminders env l2 (checkAndSendReminders env l1 st).db).sent)
        (checkAndSendReminders env l2 (checkAndSendReminders env l1 st).db).err := by
  induction l1 generalizing st with
  | nil => simp [checkAndSendReminders]
  | cons m rest ih =>
    rw [List.cons_append]
    by_cases hdue : shouldSendReminder m env.wd env.hour = true
    · by_cases hack : (getTodayReminder st env.today m.name).2.acknowledged = true
      · rw [pass_cons_ack env m rest st hdue hack] at h
        rw [pass_cons_ack env m (rest ++ l2) st hdue hack,
          pass_cons_ack env m rest st hdue hack]
        exact ih _ h
      · rw [Bool.not_eq_true] at hack
        cases hsend : env.send m with
        | error e =>
          rw [pass_cons_sendfail env m rest st e hdue hack hsend] at h
          simp at h
        | ok newMessageID =>
          rw [pass_cons_sendok env m rest st newMessageID hdue hack hsend] at h
          rw [pass_cons_sendok env m (rest ++ l2) st newMessageID hdue hack hsend,
            pass_cons_sendok env m rest st newMessageID hdue hack hsend]
          rw [ih _ h]
          rfl
    · rw [Bool.not_eq_true] at hdue
      rw [pass_cons_notdue env m rest st hdue] at h
      rw [pass_cons_notdue env m (rest ++ l2) st hdue,
        pass_cons_notdue env m rest st hdue]
      exact ih _ h

/-- C3: when sending the notification for a due, unacknowledged event
fails, the evaluation pass over the whole list behaves exactly as if the
later events were absent — no later event is processed — and the pass
reports the error; and the reminder loop performs one full pass per tick
whatever the passes' errors, so a failed pass never stops the loop. -/
theorem send_failure_aborts_pass_and_loop_survives
    (env : PassEnv) (meds1 meds2 : List Medication) (m : Medication) (st : DB) (e : String)
    (hok : (checkAndSendReminders env meds1 st).err = none)
    (hdue : shouldSendReminder m env.wd env.hour = true)
    (hnack : (getTodayReminder (checkAndSendReminders env meds1 st).db
        env.today m.name).2.acknowledged = false)
    (hfail : env.send m = Except.error e) :
    checkAndSendReminders env (meds1 ++ m :: meds2) st =
      checkAndSendReminders env (meds1 ++ [m]) st ∧
    (checkAndSendReminders env (meds1 ++ m :: meds2) st).err.isSome = true ∧
    (∀ envs allMeds ls0 n,
      (reminderLoop envs allMeds ls0 n).passes = ls0.passes + n) := by
  have hone : ∀ l2 : List Medication,
      checkAndSendReminders env (m :: l2) (checkAndSendReminders env meds1 st).db =
        PassResult.mk
          (getTodayReminder (checkAndSendReminders env meds1 st).db env.today m.name).1
          [m.name]
          (some ("failed to send reminder for " ++ m.name ++ ": " ++ e)) :=
    fun l2 => pass_cons_sendfail env m l2 (checkAndSendReminders env meds1 st).db e
      hdue hnack hfail
  have h1 := checkAndSend_append env meds1 (m :: meds2) st hok
  have h2 := checkAndSend_append env meds1 [m] st hok
  rw [hone meds2] at h1
  rw [hone []] at h2
  refine ⟨by rw [h1, h2], by rw [h1]; rfl, ?_⟩
  intro envs allMeds ls0 n
  induction n with
  | zero => simp [reminderLoop]
  | succ k ihk => simp only [reminderLoop, runTick, ihk]; omega

/-- Witness for C3: with a dispatcher that always fails, a pass over a due
medication followed by a second medication equals the pass without the
second medication, reports an error, and the loop still counts one pass
per tick. -/
theorem send_failure_aborts_pass_and_loop_survives_witness :
    checkAndSendReminders (PassEnv.mk Weekday.monday 8 "d" 0 (fun _ => Except.error "boom"))
        ([] ++ Medication.mk "Pill" 8 "daily" "" :: [Medication.mk "Other" 8 "daily" ""])
        (DB.mk [] 1) =
      checkAndSendReminders (PassEnv.mk Weekday.monday 8 "d" 0 (fun _ => Except.error "boom"))
        ([] ++ [Medication.mk "Pill" 8 "daily" ""]) (DB.mk [] 1) ∧
    (checkAndSendReminders (PassEnv.mk Weekday.monday 8 "d" 0 (fun _ => Except.error "boom"))
        ([] ++ Medication.mk "Pill" 8 "daily" "" :: [Medication.mk "Other" 8 "daily" ""])
        (DB.mk [] 1)).err.isSome = true ∧
    (∀ envs allMeds ls0 n,
      (reminderLoop envs allMeds ls0 n).passes = ls0.passes + n) :=
  send_failure_aborts_pass_and_loop_survives
    (PassEnv.mk Weekday.monday 8 "d" 0 (fun _ => Except.error "boom"))
    [] [Medication.mk "Other" 8 "daily" ""] (Medication.mk "Pill" 8 "daily" "")
    (DB.mk [] 1) "boom" rfl (by decide) rfl rfl

/-- C6 counterexample: "Ghost" is not a configured medication name, yet the
button handler — which never consults the configuration — get-or-creates a
record for the unknown name and acknowledges it: the outcome is the normal
confirmation, not an error outcome, and a record for the unknown name now
exists in the store. -/
theorem unknown_name_creates_record :
    "Ghost" ∉ sampleConfig.medications.map Medication.name ∧
    (medicationHandler (DB.mk [] 1) "d" 5 "medication_taken_Ghost" "m1").outcome
      = AckOutcome.acknowledged ∧
    countRows (medicationHandler (DB.mk [] 1) "d" 5 "medication_taken_Ghost" "m1").db
      "d" "Ghost" = 1 := by
  decide

/-- C6 (amended): the handler performs no configuration lookup at all — for
every custom id longer than the "medication_taken_" tag, whether the parsed
name is configured or not, it get-or-creates today's record for that name;
when no record existed one is created and immediately acknowledged, with
the normal confirmation outcome rather than an error outcome. -/
theorem handler_ignores_config (st : DB) (today : String) (now : Nat)
    (customID name msgID : String)
    (hlen : 17 < customID.length) (hname : customID.drop 17 = name)
    (habs : findRow st.rows today name = none) :
    (medicationHandler st today now customID msgID).outcome = AckOutcome.acknowledged ∧
    ∃ r ∈ (medicationHandler st today now customID msgID).db.rows,
      r.date = today ∧ r.medicationType = name ∧ r.acknowledged = true := by
  have hlen2 : ¬ customID.length ≤ 17 := by omega
  constructor
  · simp [medicationHandler, hlen2, hname, getTodayReminder, habs, updateReminderStatus]
  · refine ⟨{ (Row.mk st.nextId today name false none none) with
        acknowledged := true, messageID := some msgID, lastReminderTime := some now },
      ?_, rfl, rfl, rfl⟩
    simp [medicationHandler, hlen2, hname, getTodayReminder, habs, updateReminderStatus,
      insertReminderRow, applyUpdate]

/-- Witness for C6 (amended): acknowledging the unconfigured name "Ghost"
on an empty store creates and acknowledges a record for it. -/
theorem handler_ignores_config_witness :
    (medicationHandler (DB.mk [] 1) "d" 5 "medication_taken_Ghost" "m1").outcome
      = AckOutcome.acknowledged ∧
    ∃ r ∈ (medicationHandler (DB.mk [] 1) "d" 5 "medication_taken_Ghost" "m1").db.rows,
      r.date = "d" ∧ r.medicationType = "Ghost" ∧ r.acknowledged = true :=
  handler_ignores_config (DB.mk [] 1) "d" 5 "medication_taken_Ghost" "Ghost" "m1"
    (by decide) (by decide) rfl

/-- C7: acknowledging an already-acknowledged record changes nothing: the
store is returned untouched, nothing is written, and the outcome is the
dedicated "already acknowledged" response, distinguishable from the normal
confirmation. -/
theorem already_acknowledged_idempotent (st : DB) (today : String) (now : Nat)
    (customID msgID : String) (r : Row)
    (hlen : 17 < customID.length)
    (hfind : findRow st.rows today (customID.drop 17) = some r)
    (hack : r.acknowledged = true) :
    medicationHandler st today now customID msgID =
      HandlerResult.mk st AckOutcome.alreadyAcknowledged [customID.drop 17] [] ∧
    AckOutcome.alreadyAcknowledged ≠ AckOutcome.acknowledged := by
  have hlen2 : ¬ customID.length ≤ 17 := by omega
  refine ⟨?_, by decide⟩
  simp [medicationHandler, hlen2, getTodayReminder, hfind, hack]

/-- Witness for C7: re-clicking the button for the acknowledged "Pill"
record leaves the one-row store unchanged. -/
theorem already_acknowledged_idempotent_witness :
    medicationHandler (DB.mk [Row.mk 1 "d" "Pill" true none (some "m0")] 2) "d" 9
        "medication_taken_Pill" "m1" =
      HandlerResult.mk (DB.mk [Row.mk 1 "d" "Pill" true none (some "m0")] 2)
        AckOutcome.alreadyAcknowledged ["medication_taken_Pill".drop 17] [] ∧
    AckOutcome.alreadyAcknowledged ≠ AckOutcome.acknowledged :=
  already_acknowledged_idempotent (DB.mk [Row.mk 1 "d" "Pill" true none (some "m0")] 2)
    "d" 9 "medication_taken_Pill" "m1" (Row.mk 1 "d" "Pill" true none (some "m0"))
    (by decide) (by decide) rfl

/-- C10: a custom id of at most 17 characters makes the handler return
immediately with the store untouched, no lookup and no write; a longer
custom id makes the store lookup use exactly the part of the custom id
after the 17-character "medication_taken_" tag. -/
theorem handler_customid_frame (st : DB) (today : String) (now : Nat)
    (customID msgID : String) :
    (customID.length ≤ 17 →
      medicationHandler st today now customID msgID =
        HandlerResult.mk st AckOutcome.invalidFormat [] []) ∧
    (17 < customID.length →
      (medicationHandler st today now customID msgID).readNames = [customID.drop 17]) := by
  constructor
  · intro hle
    simp [medicationHandler, hle]
  · intro hlt
    have hle : ¬ customID.length ≤ 17 := by omega
    simp only [medicationHandler, hle, if_false, updateReminderStatus]
    by_cases hack : (getTodayReminder st today (customID.drop 17)).2.acknowledged = true
    · simp [hack]
    · rw [Bool.not_eq_true] at hack
      simp [hack]

/-- Witness for C10: a bare "medication_taken" custom id is rejected with
the store untouched, and a "medication_taken_Pill" custom id looks up
exactly "Pill". -/
theorem handler_customid_frame_witness :
    medicationHandler (DB.mk [] 1) "d" 0 "medication_taken" "m" =
      HandlerResult.mk (DB.mk [] 1) AckOutcome.invalidFormat [] [] ∧
    (medicationHandler (DB.mk [] 1) "d" 0 "medication_taken_Pill" "m").readNames =
      ["medication_taken_Pill".drop 17] :=
  ⟨(handler_customid_frame (DB.mk [] 1) "d" 0 "medication_taken" "m").1 (by decide),
   (handler_customid_frame (DB.mk [] 1) "d" 0 "medication_taken_Pill" "m").2 (by decide)⟩

/-- C9 counterexample: a weekly medication whose day "funday" is none of
the seven weekday values passes configuration validation — `validateConfig`
only rejects an empty day for a weekly medication and never checks the
value against the weekday names. -/
theorem weekly_nonweekday_day_validates_ok :
    exceptOk (validateConfig (fun _ => true)
      (Config.mk "token" "channel" "" 30 [Medication.mk "Med" 8 "weekly" "funday"]
        "./db" "UTC")) = true :=
  rfl

/-- Per-medication validation rejects a weekly medication with an empty
day, wherever it sits in the list. -/
theorem validateMeds_weekly_empty_day (l : List Medication) (med : Medication)
    (hmem : med ∈ l) (hfreq : med.frequency = "weekly") (hday : med.day = "") :
    exceptOk (validateMeds l) = false := by
  induction l with
  | nil => cases hmem
  | cons m rest ih =>
    rcases List.mem_cons.mp hmem with heq | hmem2
    · subst heq
      simp only [validateMeds, hfreq, hday]
      split_ifs <;> simp_all [exceptOk]
    · simp only [validateMeds]
      split_ifs <;> first
        | exact ih hmem2
        | simp_all [exceptOk]

/-- C9 (amended): configuration validation fails at startup for a
weekly-cadence medication exactly in the missing-day case — an empty day
value is rejected, while a non-empty day value is accepted without any
check against the seven weekday names. -/
theorem weekly_empty_day_fails_validation (validTZ : String → Bool) (cfg : Config)
    (med : Medication) (hmem : med ∈ cfg.medications)
    (hfreq : med.frequency = "weekly") (hday : med.day = "") :
    exceptOk (validateConfig validTZ cfg) = false := by
  have hmeds := validateMeds_weekly_empty_day cfg.medications med hmem hfreq hday
  simp only [validateConfig]
  split
  · simp [exceptOk]
  · split
    · simp [exceptOk]
    · split
      · simp [exceptOk]
      · split
        · simp [exceptOk]
        · cases hv : validateMeds cfg.medications with
          | error e => simp [exceptOk]
          | ok u => rw [hv] at hmeds; simp [exceptOk] at hmeds

/-- Witness for C9 (amended): a configuration whose only medication is
weekly with an empty day fails validation. -/
theorem weekly_empty_day_fails_validation_witness :
    exceptOk (validateConfig (fun _ => true)
      (Config.mk "token" "channel" "" 30 [Medication.mk "Med" 8 "weekly" ""]
        "./db" "UTC")) = false :=
  weekly_empty_day_fails_validation (fun _ => true)
    (Config.mk "token" "channel" "" 30 [Medication.mk "Med" 8 "weekly" ""] "./db" "UTC")
    (Medication.mk "Med" 8 "weekly" "") (by decide) rfl rfl

/-- Finding in an appended list when the first part already finds. -/
theorem find?_append_of_some {α : Type} (p : α → Bool) (l1 l2 : List α) (a : α)
    (h : l1.find? p = some a) : (l1 ++ l2).find? p = some a := by
  induction l1 with
  | nil => simp [List.find?] at h
  | cons x xs ih =>
    rw [List.cons_append]
    by_cases hx : p x = true
    · rw [List.find?_cons_of_pos _ hx] at h ⊢
      exact h
    · rw [List.find?_cons_of_neg _ hx] at h ⊢
      exact ih h

/-- Finding in an appended list when the first part finds nothing. -/
theorem find?_append_of_none {α : Type} (p : α → Bool) (l1 l2 : List α)
    (h : l1.find? p = none) : (l1 ++ l2).find? p = l2.find? p := by
  induction l1 with
  | nil => simp
  | cons x xs ih =>
    rw [List.cons_append]
    by_cases hx : p x = true
    · rw [List.find?_cons_of_pos _ hx] at h
      cases h
    · rw [List.find?_cons_of_neg _ hx] at h ⊢
      exact ih h

/-- Finding by rowid through an id-preserving row map. -/
theorem find?_id_map (rows : List Row) (g : Row → Row)
    (hgid : ∀ r, (g r).id = r.id) (id : Int) :
    (rows.map g).find? (fun r => decide (r.id = id)) =
      (rows.find? (fun r => decide (r.id = id))).map g := by
  induction rows with
  | nil => simp
  | cons x xs ih =>
    rw [List.map_cons]
    by_cases hx : x.id = id
    · rw [List.find?_cons_of_pos _ (by simp [hgid, hx]),
        List.find?_cons_of_pos _ (by simp [hx])]
      simp
    · rw [List.find?_cons_of_neg _ (by simp [hgid, hx]),
        List.find?_cons_of_neg _ (by simp [hx])]
      exact ih

/-- Unfolding get-or-create when the row exists. -/
theorem getToday_found (st : DB) (today name : String) (r : Row)
    (hf : findRow st.rows today name = some r) :
    getTodayReminder st today name =
      (st, Reminder.mk r.id today name r.acknowledged r.lastReminderTime
        (r.messageID.getD "")) := by
  simp [getTodayReminder, hf]

/-- Unfolding get-or-create when the row is absent. -/
theorem getToday_absent (st : DB) (today name : String)
    (hf : findRow st.rows today name = none) :
    getTodayReminder st today name =
      ((insertReminderRow st today name).1,
        Reminder.mk st.nextId today name false none "") := by
  simp [getTodayReminder, hf, insertReminderRow]

/-- Get-or-create preserves store well-formedness. -/
theorem getToday_wf (st : DB) (today name : String) (h : WF st) :
    WF (getTodayReminder st today name).1 := by
  cases hf : findRow st.rows today name with
  | some r => rw [getToday_found st today name r hf]; exact h
  | none =>
    rw [getToday_absent st today name hf]
    obtain ⟨hnd, hlt⟩ := h
    constructor
    · simp only [insertReminderRow, List.map_append]
      refine List.Nodup.append hnd (List.nodup_singleton _) ?_
      intro a ha hb
      simp only [List.map_cons, List.map_nil, List.mem_singleton] at hb
      subst hb
      rcases List.mem_map.mp ha with ⟨r0, hr0, hid⟩
      have := hlt r0 hr0
      rw [← hid] at this
      omega
    · intro r hr
      simp only [insertReminderRow, List.mem_append, List.mem_singleton] at hr
      simp only [insertReminderRow]
      rcases hr with hr | hr
      · have := hlt r hr
        omega
      · subst hr
        dsimp only
        omega

/-- Updating preserves store well-formedness. -/
theorem applyUpdate_wf (st : DB) (now : Nat) (id : Int) (ack : Bool) (mid : String)
    (h : WF st) : WF (applyUpdate st now id ack mid) := by
  obtain ⟨hnd, hlt⟩ := h
  have hids : (applyUpdate st now id ack mid).rows.map Row.id = st.rows.map Row.id := by
    simp only [applyUpdate, List.map_map]
    refine List.map_congr_left ?_
    intro r hr
    by_cases hid : r.id = id <;> simp [hid, Function.comp]
  constructor
  · rw [hids]; exact hnd
  · intro r hr
    simp only [applyUpdate, List.mem_map] at hr
    obtain ⟨r0, hr0, heq⟩ := hr
    subst heq
    have := hlt r0 hr0
    by_cases hid : r0.id = id <;> simp only [applyUpdate, hid, if_true, if_false] <;> omega

/-- Get-or-create never lowers an acknowledged flag. -/
theorem ackTrue_getToday (st : DB) (today name : String) (id : Int)
    (h : ackTrue st id = true) : ackTrue (getTodayReminder st today name).1 id = true := by
  cases hf : findRow st.rows today name with
  | some r => rw [getToday_found st today name r hf]; exact h
  | none =>
    rw [getToday_absent st today name hf]
    unfold ackTrue at h ⊢
    dsimp only
    cases hfind : st.rows.find? (fun r => decide (r.id = id)) with
    | none => rw [hfind] at h; simp at h
    | some rr =>
      rw [hfind] at h
      simp only [insertReminderRow]
      rw [find?_append_of_some _ _ _ _ hfind]
      exact h

/-- An update that writes true never lowers any acknowledged flag. -/
theorem ackTrue_update_true (st : DB) (now : Nat) (id0 : Int) (mid : String) (id : Int)
    (h : ackTrue st id = true) :
    ackTrue (applyUpdate st now id0 true mid) id = true := by
  unfold ackTrue at h ⊢
  simp only [applyUpdate]
  rw [find?_id_map st.rows _
    (fun r => by by_cases hid : r.id = id0 <;> simp [hid]) id]
  cases hfind : st.rows.find? (fun r => decide (r.id = id)) with
  | none => rw [hfind] at h; simp at h
  | some rr =>
    rw [hfind] at h
    simp only [Option.map_some']
    by_cases hid : rr.id = id0
    · simp [hid]
    · simp only [hid, if_false]
      exact h

/-- An update that writes false to a rowid whose stored row is already
unacknowledged never lowers any record's acknowledged flag. -/
theorem ackTrue_update_false (st : DB) (now : Nat) (id0 : Int) (mid : String)
    (r0 : Row) (hfind0 : st.rows.find? (fun r => decide (r.id = id0)) = some r0)
    (hr0 : r0.acknowledged = false) (id : Int)
    (h : ackTrue st id = true) :
    ackTrue (applyUpdate st now id0 false mid) id = true := by
  unfold ackTrue at h ⊢
  simp only [applyUpdate]
  rw [find?_id_map st.rows _
    (fun r => by by_cases hid : r.id = id0 <;> simp [hid]) id]
  cases hfind : st.rows.find? (fun r => decide (r.id = id)) with
  | none => rw [hfind] at h; simp at h
  | some rr =>
    rw [hfind] at h
    have h2 : rr.acknowledged = true := h
    simp only [Option.map_some']
    by_cases hid : rr.id = id0
    · have hrrid : rr.id = id := by simpa using List.find?_some hfind
      rw [hrrid] at hid
      subst hid
      rw [hfind] at hfind0
      injection hfind0 with he
      rw [← he] at hr0
      rw [h2] at hr0
      cases hr0
    · simp only [hid, if_false]
      exact h

/-- In a well-formed store, find-by-rowid of a member row returns that
row. -/
theorem find_by_id_of_wf (st : DB) (r : Row) (hwf : WF st) (hmem : r ∈ st.rows) :
    st.rows.find? (fun x => decide (x.id = r.id)) = some r := by
  cases hfind : st.rows.find? (fun x => decide (x.id = r.id)) with
  | none =>
    have := List.find?_eq_none.mp hfind r hmem
    simp at this
  | some rr =>
    have hrrmem : rr ∈ st.rows := List.mem_of_find?_eq_some hfind
    have hrrid : rr.id = r.id := by simpa using List.find?_some hfind
    have heq := List.inj_on_of_nodup_map hwf.1 hrrmem hmem hrrid
    rw [heq]

/-- The record handed out by get-or-create refers to a stored row that is
unacknowledged whenever the returned reminder is unacknowledged. -/
theorem getToday_find_target (st : DB) (today name : String) (hwf : WF st)
    (hack : (getTodayReminder st today name).2.acknowledged = false) :
    ∃ r0, (getTodayReminder st today name).1.rows.find?
        (fun x => decide (x.id = (getTodayReminder st today name).2.id)) = some r0 ∧
      r0.acknowledged = false := by
  cases hf : findRow st.rows today name with
  | some r =>
    rw [getToday_found st today name r hf] at hack ⊢
    exact ⟨r, find_by_id_of_wf st r hwf (List.mem_of_find?_eq_some hf), hack⟩
  | none =>
    rw [getToday_absent st today name hf]
    dsimp only
    refine ⟨Row.mk st.nextId today name false none none, ?_, rfl⟩
    have hnone : st.rows.find? (fun x => decide (x.id = st.nextId)) = none := by
      rw [List.find?_eq_none]
      intro x hx
      have := hwf.2 x hx
      simp only [decide_eq_true_eq]
      omega
    simp only [insertReminderRow]
    rw [find?_append_of_none _ _ _ hnone]
    rw [List.find?_cons_of_pos _ (by simp)]

/-- One evaluation pass preserves well-formedness and never lowers an
acknowledged flag. -/
theorem pass_preserves (env : PassEnv) :
    ∀ (meds : List Medication) (st : DB), WF st →
      WF (checkAndSendReminders env meds st).db ∧
      ∀ id, ackTrue st id = true →
        ackTrue (checkAndSendReminders env meds st).db id = true := by
  intro meds
  induction meds with
  | nil =>
    intro st hwf
    exact ⟨hwf, fun _ h => h⟩
  | cons m rest ih =>
    intro st hwf
    by_cases hdue : shouldSendReminder m env.wd env.hour = true
    · cases hack : (getTodayReminder st env.today m.name).2.acknowledged with
      | true =>
        rw [pass_cons_ack env m rest st hdue hack]
        obtain ⟨hw, ha⟩ := ih _ (getToday_wf st env.today m.name hwf)
        exact ⟨hw, fun id h => ha id (ackTrue_getToday st env.today m.name id h)⟩
      | false =>
        cases hsend : env.send m with
        | error e =>
          rw [pass_cons_sendfail env m rest st e hdue hack hsend]
          exact ⟨getToday_wf st env.today m.name hwf,
            fun id h => ackTrue_getToday st env.today m.name id h⟩
        | ok mid =>
          rw [pass_cons_sendok env m rest st mid hdue hack hsend]
          obtain ⟨r0, hf0, hr0⟩ := getToday_find_target st env.today m.name hwf hack
          have hwf2 : WF (applyUpdate (getTodayReminder st env.today m.name).1 env.now
              (getTodayReminder st env.today m.name).2.id false mid) :=
            applyUpdate_wf _ _ _ _ _ (getToday_wf st env.today m.name hwf)
          obtain ⟨hw, ha⟩ := ih _ hwf2
          refine ⟨hw, fun id h => ha id ?_⟩
          exact ackTrue_update_false _ env.now _ mid r0 hf0 hr0 id
            (ackTrue_getToday st env.today m.name id h)
    · rw [Bool.not_eq_true] at hdue
      rw [pass_cons_notdue env m rest st hdue]
      exact ih st hwf

/-- One handler invocation preserves well-formedness and never lowers an
acknowledged flag. -/
theorem handler_preserves (st : DB) (today : String) (now : Nat)
    (customID msgID : String) (hwf : WF st) :
    WF (medicationHandler st today now customID msgID).db ∧
    ∀ id, ackTrue st id = true →
      ackTrue (medicationHandler st today now customID msgID).db id = true := by
  unfold medicationHandler
  by_cases hlen : customID.length ≤ 17
  · rw [if_pos hlen]
    exact ⟨hwf, fun _ h => h⟩
  · rw [if_neg hlen]
    dsimp only
    by_cases hack :
        (getTodayReminder st today (customID.drop 17)).2.acknowledged = true
    · rw [if_pos hack]
      exact ⟨getToday_wf st today (customID.drop 17) hwf,
        fun id h => ackTrue_getToday st today (customID.drop 17) id h⟩
    · rw [if_neg hack]
      simp only [updateReminderStatus]
      exact ⟨applyUpdate_wf _ _ _ _ _ (getToday_wf st today (customID.drop 17) hwf),
        fun id h => ackTrue_update_true _ now _ msgID id
          (ackTrue_getToday st today (customID.drop 17) id h)⟩

/-- Every system step preserves well-formedness and never lowers an
acknowledged flag. -/
theorem step_preserves (s : SysStep) (st : DB) (hwf : WF st) :
    WF (applyStep s st) ∧
    ∀ id, ackTrue st id = true → ackTrue (applyStep s st) id = true := by
  cases s with
  | pass env meds => exact pass_preserves env meds st hwf
  | ack today now customID msgID => exact handler_preserves st today now customID msgID hwf

/-- A trace of states always starts with the initial state. -/
theorem traceStates_head (st : DB) (tr : List SysStep) :
    ∃ l, traceStates st tr = st :: l := by
  cases tr <;> exact ⟨_, rfl⟩

/-- Along any step sequence from a well-formed store, the per-record
acknowledged flags form a monotone Boolean sequence. -/
theorem traceStates_mono (tr : List SysStep) (st : DB) (id : Int) (hwf : WF st) :
    MonoList ((traceStates st tr).map (fun s => ackTrue s id)) := by
  induction tr generalizing st with
  | nil => trivial
  | cons s tr2 ih =>
    obtain ⟨l2, hl2⟩ := traceStates_head (applyStep s st) tr2
    have hm := ih (applyStep s st) (step_preserves s st hwf).1
    show MonoList ((st :: traceStates (applyStep s st) tr2).map (fun s => ackTrue s id))
    rw [hl2] at hm ⊢
    exact ⟨fun h => (step_preserves s st hwf).2 id h, hm⟩

/-- Monotone Boolean sequences never fall. -/
theorem monoList_fallCount (l : List Bool) (h : MonoList l) : fallCount l = 0 := by
  induction l with
  | nil => rfl
  | cons a t ih =>
    cases t with
    | nil => rfl
    | cons b t2 =>
      obtain ⟨hab, h2⟩ := h
      have hnot : ¬ (a = true ∧ b = false) := by
        rintro ⟨ha, hb⟩
        rw [hab ha] at hb
        cases hb
      simp [fallCount, hnot, ih h2]

/-- Monotone Boolean sequences rise at most once, and never once they
start at true. -/
theorem monoList_riseCount (l : List Bool) (h : MonoList l) :
    riseCount l ≤ 1 ∧ (l.head? = some true → riseCount l = 0) := by
  induction l with
  | nil => exact ⟨by simp [riseCount], fun _ => rfl⟩
  | cons a t ih =>
    cases t with
    | nil => exact ⟨by simp [riseCount], fun _ => rfl⟩
    | cons b t2 =>
      obtain ⟨hab, h2⟩ := h
      obtain ⟨ihle, ihhd⟩ := ih h2
      constructor
      · by_cases hb : b = true
        · have h0 : riseCount (b :: t2) = 0 := ihhd (by simp [hb])
          simp only [riseCount, h0]
          split <;> omega
        · have hnot : ¬ (a = false ∧ b = true) := fun hc => hb hc.2
          simpa [riseCount, hnot] using ihle
      · intro ha
        have haa : a = true := by simpa using ha
        have hbt : b = true := hab haa
        have h0 : riseCount (b :: t2) = 0 := ihhd (by simp [hbt])
        have hnot : ¬ (a = false ∧ b = true) := by
          rintro ⟨hc, _⟩
          rw [haa] at hc
          cases hc
        simp [riseCount, hnot, h0]

/-- C8: along any interleaving of whole scheduler evaluation-pass steps and
acknowledgment-handler steps starting from a well-formed store, the
acknowledged flag of any record never moves from true back to false, and
moves from false to true at most once. -/
theorem ack_flag_monotone_traces (tr : List SysStep) (st : DB) (id : Int) (hwf : WF st) :
    fallCount ((traceStates st tr).map (fun s => ackTrue s id)) = 0 ∧
    riseCount ((traceStates st tr).map (fun s => ackTrue s id)) ≤ 1 := by
  have hm := traceStates_mono tr st id hwf
  exact ⟨monoList_fallCount _ hm, (monoList_riseCount _ hm).1⟩

/-- Witness for C8: two successive acknowledgment steps for the same
medication on the empty store flip the flag once and never lower it. -/
theorem ack_flag_monotone_traces_witness :
    fallCount ((traceStates (DB.mk [] 1)
      [SysStep.ack "d" 5 "medication_taken_Pill" "m1",
       SysStep.ack "d" 6 "medication_taken_Pill" "m2"]).map
        (fun s => ackTrue s 1)) = 0 ∧
    riseCount ((traceStates (DB.mk [] 1)
      [SysStep.ack "d" 5 "medication_taken_Pill" "m1",
       SysStep.ack "d" 6 "medication_taken_Pill" "m2"]).map
        (fun s => ackTrue s 1)) ≤ 1 :=
  ack_flag_monotone_traces
    [SysStep.ack "d" 5 "medication_taken_Pill" "m1",
     SysStep.ack "d" 6 "medication_taken_Pill" "m2"]
    (DB.mk [] 1) 1 ⟨by simp, by simp⟩

end MedsBot
